import Mathlib

/-!
Verification of the STM32/robotic-arm hardware-control backend
(`backend.py`, `robotic_arm_backend.py`).

The Python classes are shallowly embedded as Lean structures and pure
functions.  Python ints become `ℕ`/`ℤ`, Python floats become `ℚ` (the
arithmetic in the source is plain `+ * / min max` on small decimal
constants, for which exact rational arithmetic models the intent; the
`int()` truncation that dominates the analog-smoothing behaviour is
modelled exactly), Python dicts become insertion-ordered association
lists, and wall-clock reads (`time.time()`) and device replies become
explicit parameters.  File and serial I/O are abstracted: a command's
reply is a parameter, a saved JSON file is the structure of fields the
source writes.
-/

/-! ## Association-list model of Python dicts -/

/-- Python dict assignment `d[k] = v`: replace in place, or append. -/
def listInsert {α β : Type} [BEq α] (k : α) (v : β) : List (α × β) → List (α × β)
  | [] => [(k, v)]
  | (k2, v2) :: rest =>
    if k == k2 then (k, v) :: rest else (k2, v2) :: listInsert k v rest

theorem lookup_listInsert_self {α β : Type} [BEq α] [LawfulBEq α]
    (k : α) (v : β) (l : List (α × β)) :
    List.lookup k (listInsert k v l) = some v := by
  induction l with
  | nil => simp [listInsert, List.lookup]
  | cons p rest ih =>
    obtain ⟨k2, v2⟩ := p
    by_cases h : (k == k2) = true
    · simp [listInsert, h, List.lookup]
    · have h2 : (k == k2) = false := by simpa using h
      simp [listInsert, h2, List.lookup, ih]

/-- Python's `int()` on a float: truncation toward zero. -/
def intTrunc (q : ℚ) : ℤ := if 0 ≤ q then ⌊q⌋ else ⌈q⌉

/-! ## `backend.py`: HardwareState, HardwareStatus, HardwareMonitor -/

/-- `class HardwareState(Enum)` in `backend.py`. -/
inductive HardwareState where
  | disconnected
  | connecting
  | connected
  | error
  | reconnecting
deriving DecidableEq, Repr

/-- `@dataclass HardwareStatus` in `backend.py` (times are `ℚ` seconds). -/
structure HardwareStatus where
  state : HardwareState
  connected_at : Option ℚ := none
  last_command : Option ℚ := none
  total_commands : ℕ := 0
  successful_commands : ℕ := 0
  error_count : ℕ := 0
  average_response_time : ℚ := 0
  pin_states : List (ℕ × ℤ) := []
  analog_values : List (String × ℤ) := []
deriving DecidableEq, Repr

/-- One entry of `HardwareMonitor.error_log`. -/
structure ErrorEntry where
  timestamp : ℚ
  error : String
  context : String
  state : HardwareState
deriving DecidableEq, Repr

/-- `class HardwareMonitor` in `backend.py` (`performance_history` is never
written by the code paths under study and is omitted). -/
structure HardwareMonitor where
  status : HardwareStatus
  response_times : List ℚ
  error_log : List ErrorEntry
deriving DecidableEq, Repr

/-- `HardwareMonitor.__init__`. -/
def HardwareMonitor.init : HardwareMonitor :=
  { status := { state := HardwareState.disconnected }
    response_times := []
    error_log := [] }

/-- `HardwareMonitor.update_response_time`: append the sample, drop the
oldest while more than 100 are held, recompute the average. -/
def HardwareMonitor.update_response_time (t : ℚ) (m : HardwareMonitor) :
    HardwareMonitor :=
  let rts0 := m.response_times ++ [t]
  let rts := if rts0.length > 100 then rts0.tail else rts0
  { m with
    response_times := rts
    status := { m.status with average_response_time := rts.sum / rts.length } }

/-- `HardwareMonitor.record_command`. -/
def HardwareMonitor.record_command (success : Bool) (m : HardwareMonitor) :
    HardwareMonitor :=
  let st := { m.status with total_commands := m.status.total_commands + 1 }
  let st :=
    if success then
      { st with successful_commands := st.successful_commands + 1 }
    else
      { st with error_count := st.error_count + 1 }
  { m with status := st }

/-- `HardwareMonitor.record_error` (`now` is the `time.time()` read). -/
def HardwareMonitor.record_error (err ctx : String) (now : ℚ)
    (m : HardwareMonitor) : HardwareMonitor :=
  let entry : ErrorEntry :=
    { timestamp := now, error := err, context := ctx, state := m.status.state }
  let log0 := m.error_log ++ [entry]
  let log := if log0.length > 50 then log0.tail else log0
  { m with
    status := { m.status with error_count := m.status.error_count + 1 }
    error_log := log }

/-- The monitor mutations reachable from the backend: these three methods
are the only writers of the counters/windows. -/
inductive MonOp where
  | updateResponseTime (t : ℚ)
  | recordCommand (success : Bool)
  | recordError (err ctx : String) (now : ℚ)

def MonOp.apply (m : HardwareMonitor) : MonOp → HardwareMonitor
  | .updateResponseTime t => HardwareMonitor.update_response_time t m
  | .recordCommand b => HardwareMonitor.record_command b m
  | .recordError e c now => HardwareMonitor.record_error e c now m

/-- Run a sequence of monitor operations from a given state. -/
def runOpsFrom (m : HardwareMonitor) (ops : List MonOp) : HardwareMonitor :=
  ops.foldl MonOp.apply m

/-- Run a sequence of monitor operations from the freshly constructed
monitor. -/
def runOps (ops : List MonOp) : HardwareMonitor :=
  runOpsFrom HardwareMonitor.init ops

/-- Monitor traffic of `STM32HardwareInterface.send_command` on its success
path: one latency report, one successful-command record. -/
def sendCommandSuccessOps (t : ℚ) : List MonOp :=
  [MonOp.updateResponseTime t, MonOp.recordCommand true]

/-- Monitor traffic of `STM32HardwareInterface.send_command` on its failure
path: one latency report, one failed-command record, one error record. -/
def sendCommandFailureOps (t : ℚ) (e cmd : String) (now : ℚ) : List MonOp :=
  [MonOp.updateResponseTime t, MonOp.recordCommand false,
   MonOp.recordError e cmd now]

/-- Number of `record_command(False)` calls in an operation sequence. -/
def countFailedCommands : List MonOp → ℕ
  | [] => 0
  | MonOp.recordCommand false :: rest => countFailedCommands rest + 1
  | _ :: rest => countFailedCommands rest

/-- Number of `record_command(True)` calls in an operation sequence. -/
def countSuccessfulCommands : List MonOp → ℕ
  | [] => 0
  | MonOp.recordCommand true :: rest => countSuccessfulCommands rest + 1
  | _ :: rest => countSuccessfulCommands rest

/-- Number of `record_error` calls in an operation sequence. -/
def countRecordErrors : List MonOp → ℕ
  | [] => 0
  | MonOp.recordError _ _ _ :: rest => countRecordErrors rest + 1
  | _ :: rest => countRecordErrors rest

/-- `HardwareMonitor.get_health_score`, line for line from the source. -/
def HardwareMonitor.get_health_score (m : HardwareMonitor) : ℚ :=
  if m.status.total_commands = 0 then
    if m.status.state = HardwareState.connected then 100 else 0
  else
    let success_rate : ℚ :=
      (m.status.successful_commands : ℚ) / (m.status.total_commands : ℚ)
    let response_penalty : ℚ :=
      min 20 (max 0 ((m.status.average_response_time - 1/10) * 100))
    let error_penalty : ℚ :=
      ((m.status.error_count : ℚ) / max 1 (m.status.total_commands : ℚ)) * 30
    let health_score := success_rate * 100 - response_penalty - error_penalty
    max 0 (min 100 health_score)

/-- Modelled from the spec sentence for C3: health score =
`100 × successRate − latencyPenalty − errorPenalty` clamped to `[0,100]`,
with `successRate = successes/total`,
`latencyPenalty = min(20, max(0, (avgLatency − 0.1) × 100))`,
`errorPenalty = (errors / max(1, total)) × 30`; with zero commands issued
the score is 100 when state = Connected and 0 otherwise. -/
def healthScoreSpec (m : HardwareMonitor) : ℚ :=
  if m.status.total_commands = 0 then
    if m.status.state = HardwareState.connected then 100 else 0
  else
    let successRate : ℚ :=
      (m.status.successful_commands : ℚ) / (m.status.total_commands : ℚ)
    let latencyPenalty : ℚ :=
      min 20 (max 0 ((m.status.average_response_time - 1/10) * 100))
    let errorPenalty : ℚ :=
      ((m.status.error_count : ℚ) / max 1 (m.status.total_commands : ℚ)) * 30
    max 0 (min 100 (100 * successRate - latencyPenalty - errorPenalty))

/-! ## `backend.py`: HardwareService (pin configuration, smoothing) -/

/-- `@dataclass PinConfiguration` in `backend.py`. -/
structure PinConfiguration where
  pin_number : ℕ
  mode : String
  initial_state : ℤ := 0
  debounce_ms : ℕ := 50
  smoothing_enabled : Bool := true
  smoothing_factor : ℚ := 3/10
deriving DecidableEq, Repr

/-- `HardwareService.smoothing_window` (set to 5 in `__init__`). -/
def smoothing_window : ℕ := 5

/-- The mutable state of `class HardwareService`: the pin-configuration
dict and the per-channel smoothing windows (lists of Python ints). -/
structure ServiceState where
  pin_configs : List (ℕ × PinConfiguration)
  analog_smoothing : List (String × List ℤ)
deriving DecidableEq, Repr

/-- `HardwareService.__init__`: both dicts start empty. -/
def ServiceState.init : ServiceState :=
  { pin_configs := [], analog_smoothing := [] }

/-- `HardwareService._apply_smoothing`: blend the last stored window value
with the new raw sample (0.7/0.3), append the `int()`-truncated result,
pop the oldest entry once the window exceeds `smoothing_window`.  The
source indexes `values[-1]` on a window that is never empty; the model
totalises that read with a 0 default. -/
def HardwareService.apply_smoothing (st : ServiceState) (pin : String)
    (new_value : ℤ) : ℚ × ServiceState :=
  let values := (List.lookup pin st.analog_smoothing).getD []
  let smoothed : ℚ := (values.getLastD 0 : ℚ) * (7/10) + (new_value : ℚ) * (3/10)
  let values2 := values ++ [intTrunc smoothed]
  let values3 := if values2.length > smoothing_window then values2.tail else values2
  (smoothed, { st with analog_smoothing := listInsert pin values3 st.analog_smoothing })

/-- Core of `HardwareService.analog_read` once the reply has parsed as a
nonnegative integer `value`: smooth when the channel already has a window,
otherwise return the raw sample and seed the window with it. -/
def HardwareService.analog_read_value (st : ServiceState) (pin : String)
    (value : ℕ) : ℤ × ServiceState :=
  if (List.lookup pin st.analog_smoothing).isSome then
    let r := HardwareService.apply_smoothing st pin (value : ℤ)
    (intTrunc r.1, r.2)
  else
    ((value : ℤ),
     { st with analog_smoothing :=
        listInsert pin (List.replicate smoothing_window (value : ℤ)) st.analog_smoothing })

/-- Python `str.isdigit` restricted to ASCII: nonempty and all digits. -/
def pyIsdigit (s : String) : Bool :=
  !s.data.isEmpty && s.data.all Char.isDigit

/-- Python `int(s)` on a digit string. -/
def pyStrToNat (s : String) : ℕ :=
  s.data.foldl (fun acc c => acc * 10 + (c.toNat - 48)) 0

/-- `HardwareService.analog_read`: `response` is the device's reply to
`ANALOG_READ:<pin>`; a non-digit reply falls through to `None` with the
state unchanged. -/
def HardwareService.analog_read (st : ServiceState) (pin : String)
    (response : String) : Option ℤ × ServiceState :=
  if pyIsdigit response then
    let r := HardwareService.analog_read_value st pin (pyStrToNat response)
    (some r.1, r.2)
  else
    (none, st)

/-- State after `n` calls of `analog_read` on channel `pin`, the `k`-th
call reading raw sample `r k`, starting from the fresh service. -/
def analogReadState (pin : String) (r : ℕ → ℕ) : ℕ → ServiceState
  | 0 => ServiceState.init
  | n + 1 =>
    (HardwareService.analog_read_value (analogReadState pin r n) pin (r n)).2

/-- Value returned by the `(n+1)`-th `analog_read` call on channel `pin`
(0-indexed: `analogReadOut pin r 0` is the first read's return). -/
def analogReadOut (pin : String) (r : ℕ → ℕ) (n : ℕ) : ℤ :=
  (HardwareService.analog_read_value (analogReadState pin r n) pin (r n)).1

/-- Wire commands, as built by `HardwareService`. -/
def pinModeCmd (pin : ℕ) (mode : String) : String :=
  "PIN_MODE:" ++ toString pin ++ ":" ++ mode

def digitalWriteCmd (pin : ℕ) (state : ℤ) : String :=
  "DIGITAL_WRITE:" ++ toString pin ++ ":" ++ toString state

def digitalReadCmd (pin : ℕ) : String :=
  "DIGITAL_READ:" ++ toString pin

/-- `HardwareService.configure_pin`: issue `PIN_MODE`, and record the
configuration only on an `OK` reply.  `env` maps each sent command to the
device's reply; the last component collects the commands sent, in order. -/
def HardwareService.configure_pin (env : String → String) (st : ServiceState)
    (pin : ℕ) (mode : String) (debounce_ms : ℕ) (smoothing : Bool) :
    Bool × ServiceState × List String :=
  let cmd := pinModeCmd pin mode
  let response := env cmd
  if response = "OK" then
    let config : PinConfiguration :=
      { pin_number := pin, mode := mode, debounce_ms := debounce_ms,
        smoothing_enabled := smoothing }
    (true, { st with pin_configs := listInsert pin config st.pin_configs }, [cmd])
  else
    (false, st, [cmd])

/-- `HardwareService.digital_write`: auto-configure an unconfigured pin as
OUTPUT (result ignored), then issue `DIGITAL_WRITE`; `True` exactly on an
`OK` reply.  (The `PinStateChanged` event emitted on success carries no
state and is not modelled.) -/
def HardwareService.digital_write (env : String → String) (st : ServiceState)
    (pin : ℕ) (state : ℤ) : Bool × ServiceState × List String :=
  let auto :=
    if (List.lookup pin st.pin_configs).isNone then
      HardwareService.configure_pin env st pin "OUTPUT" 50 true
    else
      (true, st, [])
  let st1 := auto.2.1
  let sent1 := auto.2.2
  let cmd := digitalWriteCmd pin state
  let response := env cmd
  ((response = "OK" : Bool), st1, sent1 ++ [cmd])

/-- `HardwareService.digital_read`: issue `DIGITAL_READ` as-is; only the
replies `"0"` and `"1"` parse.  The pin-configuration dict is not read or
written. -/
def HardwareService.digital_read (env : String → String) (st : ServiceState)
    (pin : ℕ) : Option ℤ × ServiceState × List String :=
  let cmd := digitalReadCmd pin
  let response := env cmd
  let result : Option ℤ :=
    if response = "0" then some 0 else if response = "1" then some 1 else none
  (result, st, [cmd])

/-- `HardwareService._on_connection_lost`: clears the smoothing dict (and
nothing else). -/
def HardwareService.on_connection_lost (st : ServiceState) : ServiceState :=
  { st with analog_smoothing := [] }

/-- `STM32HardwareInterface.disconnect` effect on the monitor: the state
flag drops to DISCONNECTED (the serial handle is closed; no counters or
service dicts are touched). -/
def STM32HardwareInterface.disconnect (m : HardwareMonitor) : HardwareMonitor :=
  { m with status := { m.status with state := HardwareState.disconnected } }

/-! ## `backend.py`: AutomationEngine -/

/-- One step of an automation sequence (`{"action": .., "pin": .., "value": ..}`). -/
structure SeqStep where
  action : String
  pin : String
  value : ℚ
deriving DecidableEq, Repr

/-- The per-name sequence record built by `AutomationEngine.create_sequence`. -/
structure Sequence where
  name : String
  steps : List SeqStep
  loop : Bool
  interval : ℚ
  enabled : Bool
  current_step : ℕ
  start_time : Option ℚ
deriving DecidableEq, Repr

/-- The `AutomationEngine.sequences` dict. -/
abbrev SequenceTable := List (String × Sequence)

/-- `AutomationEngine.create_sequence`: build the record, store it under
`name` (a dict assignment: any existing entry is overwritten), emit
`SEQUENCE_STARTED`, return `True`.  There is no duplicate-name or
well-formedness check. -/
def AutomationEngine.create_sequence (table : SequenceTable) (name : String)
    (steps : List SeqStep) (loop : Bool) (interval : ℚ) :
    Bool × SequenceTable :=
  let sequence : Sequence :=
    { name := name, steps := steps, loop := loop, interval := interval,
      enabled := true, current_step := 0, start_time := none }
  (true, listInsert name sequence table)

/-! ## `robotic_arm_backend.py`: waypoints, tasks, positions -/

/-- `class TrajectoryType(Enum)`. -/
inductive TrajectoryType where
  | smooth
  | linear
  | cpg
deriving DecidableEq, Repr

/-- `TrajectoryType(...).value`. -/
def TrajectoryType.toValue : TrajectoryType → String
  | .smooth => "smooth"
  | .linear => "linear"
  | .cpg => "cpg"

/-- `TrajectoryType(s)`: the enum constructor, `none` on `ValueError`. -/
def TrajectoryType.fromValue (s : String) : Option TrajectoryType :=
  if s = "smooth" then some .smooth
  else if s = "linear" then some .linear
  else if s = "cpg" then some .cpg
  else none

/-- `class MotionProfile(Enum)`. -/
inductive MotionProfile where
  | fast
  | normal
  | slow
  | precise
deriving DecidableEq, Repr

/-- `MotionProfile(...).value`. -/
def MotionProfile.toValue : MotionProfile → String
  | .fast => "fast"
  | .normal => "normal"
  | .slow => "slow"
  | .precise => "precise"

/-- `MotionProfile(s)`: the enum constructor, `none` on `ValueError`. -/
def MotionProfile.fromValue (s : String) : Option MotionProfile :=
  if s = "fast" then some .fast
  else if s = "normal" then some .normal
  else if s = "slow" then some .slow
  else if s = "precise" then some .precise
  else none

/-- `@dataclass Waypoint` (`timestamp` defaults to the `time.time()` of
construction, passed explicitly here). -/
structure Waypoint where
  positions : List ℚ
  delay_ms : ℤ
  trajectory_type : TrajectoryType
  motion_profile : MotionProfile
  timestamp : ℚ
deriving DecidableEq, Repr

/-- `@dataclass TaskSequence`. -/
structure TaskSequence where
  name : String
  description : String
  waypoints : List Waypoint
  loop_count : ℕ
  created_at : ℚ
  modified_at : ℚ
deriving DecidableEq, Repr

/-- The backend state of `class RoboticArmBackend` relevant to task and
position management (serial handles, logging and threads are I/O). The
position callbacks are modelled by the payload delivered to all of them,
reported in each operation's output. -/
structure ArmBackend where
  max_waypoints : ℕ
  max_tasks : ℕ
  is_connected : Bool
  tasks : List (String × TaskSequence)
  current_positions : List ℚ
deriving DecidableEq, Repr

/-- `RoboticArmBackend.__init__` with the default arguments
(`max_waypoints=250`, `max_tasks=6`); positions start as seven zeros. -/
def RoboticArmBackend.init : ArmBackend :=
  { max_waypoints := 250, max_tasks := 6, is_connected := false,
    tasks := [], current_positions := List.replicate 7 0 }

/-- `RoboticArmBackend.create_task` (`now` is the `time.time()` default of
`created_at`/`modified_at`). -/
def RoboticArmBackend.create_task (b : ArmBackend) (name : String)
    (description : String) (now : ℚ) :
    Option TaskSequence × ArmBackend :=
  if b.tasks.length ≥ b.max_tasks then
    (none, b)
  else if (List.lookup name b.tasks).isSome then
    (none, b)
  else
    let task : TaskSequence :=
      { name := name, description := description, waypoints := [],
        loop_count := 0, created_at := now, modified_at := now }
    (some task, { b with tasks := listInsert name task b.tasks })

/-- `RoboticArmBackend.add_waypoint_to_task`. -/
def RoboticArmBackend.add_waypoint_to_task (b : ArmBackend)
    (task_name : String) (positions : List ℚ) (delay_ms : ℤ)
    (trajectory_type : TrajectoryType)
    (motion_profile : MotionProfile) (now : ℚ) :
    Bool × ArmBackend :=
  match List.lookup task_name b.tasks with
  | none => (false, b)
  | some task =>
    if task.waypoints.length ≥ b.max_waypoints then
      (false, b)
    else
      let wp : Waypoint :=
        { positions := positions, delay_ms := delay_ms,
          trajectory_type := trajectory_type,
          motion_profile := motion_profile, timestamp := now }
      let task2 :=
        { task with waypoints := task.waypoints ++ [wp], modified_at := now }
      (true, { b with tasks := listInsert task_name task2 b.tasks })

/-! ### save_task / load_task

`save_task` serialises one task to a JSON file and `load_task` reads one
back; the JSON document is modelled by the structure of fields that
`save_task` writes (JSON round-trips these fields exactly). -/

/-- One element of the `"waypoints"` array written by `save_task`. -/
structure SavedWaypoint where
  positions : List ℚ
  delay_ms : ℤ
  trajectory_type : String
  motion_profile : String
deriving DecidableEq, Repr

/-- The JSON document written by `save_task`. -/
structure SavedTask where
  name : String
  description : String
  waypoints : List SavedWaypoint
  created_at : ℚ
  modified_at : ℚ
deriving DecidableEq, Repr

/-- The per-waypoint dict built inside `save_task`. -/
def saveWaypoint (wp : Waypoint) : SavedWaypoint :=
  { positions := wp.positions, delay_ms := wp.delay_ms,
    trajectory_type := wp.trajectory_type.toValue,
    motion_profile := wp.motion_profile.toValue }

/-- `RoboticArmBackend.save_task`: `none` when the task name is unknown
(the file write itself is I/O; its content is the returned document). -/
def RoboticArmBackend.save_task (tasks : List (String × TaskSequence))
    (task_name : String) : Option SavedTask :=
  match List.lookup task_name tasks with
  | none => none
  | some task =>
    some { name := task.name, description := task.description,
           waypoints := task.waypoints.map saveWaypoint,
           created_at := task.created_at, modified_at := task.modified_at }

/-- One iteration of the waypoint-loading loop in `load_task`
(`Waypoint(...)` with `timestamp` defaulting to `time.time()`, here
`now`); an unknown enum value raises `ValueError`, modelled as `none`. -/
def loadWaypoint (now : ℚ) (s : SavedWaypoint) : Option Waypoint :=
  match TrajectoryType.fromValue s.trajectory_type,
        MotionProfile.fromValue s.motion_profile with
  | some tt, some mp =>
    some { positions := s.positions, delay_ms := s.delay_ms,
           trajectory_type := tt, motion_profile := mp, timestamp := now }
  | _, _ => none

/-- The waypoint-loading loop of `load_task`: any failure aborts the whole
load (the `ValueError` is caught at function level). -/
def loadWaypoints (now : ℚ) : List SavedWaypoint → Option (List Waypoint)
  | [] => some []
  | s :: rest =>
    match loadWaypoint now s, loadWaypoints now rest with
    | some w, some ws => some (w :: ws)
    | _, _ => none

/-- `RoboticArmBackend.load_task`: rebuild the task from the document and
store it under its own name; on any exception return `None` and leave the
table unchanged.  (`data.get` defaults for absent keys never fire on
documents produced by `save_task`, which writes every key.) -/
def RoboticArmBackend.load_task (doc : SavedTask) (now : ℚ)
    (tasks : List (String × TaskSequence)) :
    Option String × List (String × TaskSequence) :=
  match loadWaypoints now doc.waypoints with
  | none => (none, tasks)
  | some wps =>
    let task : TaskSequence :=
      { name := doc.name, description := doc.description, waypoints := wps,
        loop_count := 0, created_at := doc.created_at,
        modified_at := doc.modified_at }
    (some task.name, listInsert task.name task tasks)

/-! ### read_all_positions -/

/-- `str.split(',')` on the underlying characters. -/
def splitCommaAux (acc : List Char) : List Char → List String
  | [] => [String.mk acc.reverse]
  | c :: rest =>
    if c = ',' then String.mk acc.reverse :: splitCommaAux [] rest
    else splitCommaAux (c :: acc) rest

def pySplitComma (s : String) : List String :=
  splitCommaAux [] s.data

/-- Python `str.strip()` (ASCII whitespace). -/
def isSpaceChar (c : Char) : Bool :=
  c = ' ' || c = '\t' || c = '\n' || c = '\r'

def pyStrip (s : String) : String :=
  String.mk (((s.data.dropWhile isSpaceChar).reverse.dropWhile isSpaceChar).reverse)

/-- `float(x)` as used in `read_all_positions`: the guard has already
established that the reply is all digits, so each split part is a digit
string and parses to its numeric value. -/
def pyFloatOfDigits (s : String) : ℚ :=
  (pyStrToNat s : ℚ)

/-- `RoboticArmBackend.read_all_positions`: send `readall` (the reply is
the `response` parameter), and only when the reply is a nonempty digit
string parse it as comma-separated floats, cache them and notify every
position callback.  Output: (returned list, new state, payload delivered
to the callbacks, if any). -/
def RoboticArmBackend.read_all_positions (b : ArmBackend) (response : String) :
    List ℚ × ArmBackend × Option (List ℚ) :=
  if !b.is_connected then
    ([], b, none)
  else if !response.data.isEmpty && pyIsdigit response then
    let positions :=
      ((pySplitComma response).filter (fun x => pyStrip x ≠ "")).map pyFloatOfDigits
    if !positions.isEmpty then
      (positions, { b with current_positions := positions }, some positions)
    else
      ([], b, none)
  else
    ([], b, none)

/-! ## Theorems -/

theorem runOpsFrom_counts : ∀ (ops : List MonOp) (m : HardwareMonitor),
    ((runOpsFrom m ops).status.total_commands
      = m.status.total_commands
          + (countSuccessfulCommands ops + countFailedCommands ops))
  ∧ ((runOpsFrom m ops).status.successful_commands
      = m.status.successful_commands + countSuccessfulCommands ops)
  ∧ ((runOpsFrom m ops).status.error_count
      = m.status.error_count + (countFailedCommands ops + countRecordErrors ops))
  | [], m => by
    simp [runOpsFrom, countSuccessfulCommands, countFailedCommands,
          countRecordErrors]
  | op :: rest, m => by
    obtain ⟨h1, h2, h3⟩ := runOpsFrom_counts rest (MonOp.apply m op)
    have hrun : runOpsFrom m (op :: rest) = runOpsFrom (MonOp.apply m op) rest := rfl
    cases op with
    | updateResponseTime t =>
      simp only [hrun, h1, h2, h3]
      simp [MonOp.apply, HardwareMonitor.update_response_time,
            countSuccessfulCommands, countFailedCommands, countRecordErrors]
    | recordCommand b =>
      cases b with
      | true =>
        simp only [hrun, h1, h2, h3]
        simp [MonOp.apply, HardwareMonitor.record_command,
              countSuccessfulCommands, countFailedCommands, countRecordErrors]
        omega
      | false =>
        simp only [hrun, h1, h2, h3]
        simp [MonOp.apply, HardwareMonitor.record_command,
              countSuccessfulCommands, countFailedCommands, countRecordErrors]
        omega
    | recordError e c now =>
      simp only [hrun, h1, h2, h3]
      simp [MonOp.apply, HardwareMonitor.record_error,
            countSuccessfulCommands, countFailedCommands, countRecordErrors]
      omega

/-- C1 (amended): after every monitor operation — in particular after every
`record_command` call — the total counter equals the successful counter
plus the number of `record_command(False)` calls, so
`successful + failed ≤ total` holds for failed commands; the `error_count`
field, however, also counts every `record_error` call (without a matching
`total` increment), so it is failed commands plus recorded errors and can
exceed `total − successful`. -/
theorem C1_monitor_counter_invariant (ops : List MonOp) :
    ((runOps ops).status.total_commands
      = (runOps ops).status.successful_commands + countFailedCommands ops)
  ∧ ((runOps ops).status.error_count
      = countFailedCommands ops + countRecordErrors ops)
  ∧ ((runOps ops).status.successful_commands + countFailedCommands ops
      ≤ (runOps ops).status.total_commands) := by
  obtain ⟨h1, h2, h3⟩ := runOpsFrom_counts ops HardwareMonitor.init
  refine ⟨?_, ?_, ?_⟩
  · simp only [runOps]
    rw [h1, h2]
    simp only [HardwareMonitor.init]
    omega
  · simp only [runOps]
    rw [h3]
    simp only [HardwareMonitor.init]
    omega
  · simp only [runOps]
    rw [h1, h2]
    simp only [HardwareMonitor.init]
    omega

/-- C1 is false as stated: one failing `send_command` records the failure
twice in `error_count` (once via `record_command(False)`, once via
`record_error`), so `successful + error_count > total` right after it,
and after a subsequent `record_command` call
`total ≠ successful + error_count`. -/
theorem C1_counterexample :
    ¬ ((runOps (sendCommandFailureOps 1 "e" "CMD" 0)).status.successful_commands
        + (runOps (sendCommandFailureOps 1 "e" "CMD" 0)).status.error_count
        ≤ (runOps (sendCommandFailureOps 1 "e" "CMD" 0)).status.total_commands)
  ∧ ¬ ((runOps (sendCommandFailureOps 1 "e" "CMD" 0 ++ [MonOp.recordCommand true])).status.total_commands
        = (runOps (sendCommandFailureOps 1 "e" "CMD" 0 ++ [MonOp.recordCommand true])).status.successful_commands
          + (runOps (sendCommandFailureOps 1 "e" "CMD" 0 ++ [MonOp.recordCommand true])).status.error_count) := by
  decide

theorem tail_append_single {α : Type} (l : List α) (x : α) (h : l ≠ []) :
    (l ++ [x]).tail = l.tail ++ [x] := by
  cases l with
  | nil => exact absurd rfl h
  | cons a rest => rfl

theorem runOpsFrom_window_bounds (ops : List MonOp) :
    ∀ (m : HardwareMonitor),
    m.response_times.length ≤ 100 → m.error_log.length ≤ 50 →
    (runOpsFrom m ops).response_times.length ≤ 100
      ∧ (runOpsFrom m ops).error_log.length ≤ 50 := by
  induction ops with
  | nil => exact fun m h1 h2 => ⟨h1, h2⟩
  | cons op rest ih =>
    intro m h1 h2
    have hstep1 : (MonOp.apply m op).response_times.length ≤ 100 := by
      cases op with
      | updateResponseTime t =>
        simp only [MonOp.apply, HardwareMonitor.update_response_time]
        split <;> simp_all
      | recordCommand b => simpa [MonOp.apply, HardwareMonitor.record_command] using h1
      | recordError e c now => simpa [MonOp.apply, HardwareMonitor.record_error] using h1
    have hstep2 : (MonOp.apply m op).error_log.length ≤ 50 := by
      cases op with
      | updateResponseTime t =>
        simpa [MonOp.apply, HardwareMonitor.update_response_time] using h2
      | recordCommand b => simpa [MonOp.apply, HardwareMonitor.record_command] using h2
      | recordError e c now =>
        simp only [MonOp.apply, HardwareMonitor.record_error]
        split <;> simp_all
    exact ih (MonOp.apply m op) hstep1 hstep2

/-- C8: along every sequence of monitor operations the latency window
holds at most 100 entries and the error log at most 50; on insertion at
the bound the oldest entry (the list head) is evicted and the new entry is
appended (FIFO), otherwise the new entry is appended with no eviction. -/
theorem C8_bounded_fifo_windows (ops : List MonOp) :
    ((runOps ops).response_times.length ≤ 100)
  ∧ ((runOps ops).error_log.length ≤ 50)
  ∧ (∀ t : ℚ,
      (HardwareMonitor.update_response_time t (runOps ops)).response_times
        = if (runOps ops).response_times.length = 100
          then (runOps ops).response_times.tail ++ [t]
          else (runOps ops).response_times ++ [t])
  ∧ (∀ (e c : String) (now : ℚ),
      (HardwareMonitor.record_error e c now (runOps ops)).error_log
        = if (runOps ops).error_log.length = 50
          then (runOps ops).error_log.tail
                ++ [{ timestamp := now, error := e, context := c,
                      state := (runOps ops).status.state }]
          else (runOps ops).error_log
                ++ [{ timestamp := now, error := e, context := c,
                      state := (runOps ops).status.state }]) := by
  obtain ⟨hb1, hb2⟩ :=
    runOpsFrom_window_bounds ops HardwareMonitor.init (by simp [HardwareMonitor.init])
      (by simp [HardwareMonitor.init])
  refine ⟨hb1, hb2, ?_, ?_⟩
  · intro t
    by_cases hl : (runOps ops).response_times.length = 100
    · have hne : (runOps ops).response_times ≠ [] := by
        intro hnil
        rw [hnil] at hl
        simp at hl
      simp only [HardwareMonitor.update_response_time, if_pos hl]
      rw [if_pos (by simp [hl]), tail_append_single _ _ hne]
    · have hlt : (runOps ops).response_times.length < 100 :=
        lt_of_le_of_ne hb1 hl
      simp only [HardwareMonitor.update_response_time, if_neg hl]
      rw [if_neg (by simp; omega)]
  · intro e c now
    by_cases hl : (runOps ops).error_log.length = 50
    · have hne : (runOps ops).error_log ≠ [] := by
        intro hnil
        rw [hnil] at hl
        simp at hl
      simp only [HardwareMonitor.record_error, if_pos hl]
      rw [if_pos (by simp [hl]), tail_append_single _ _ hne]
    · have hlt : (runOps ops).error_log.length < 50 :=
        lt_of_le_of_ne hb2 hl
      simp only [HardwareMonitor.record_error, if_neg hl]
      rw [if_neg (by simp; omega)]

/-- C3: `get_health_score` computes exactly the specified formula —
`100 × successRate − latencyPenalty − errorPenalty` clamped to `[0,100]` —
the score always lies in `[0,100]`, and with zero commands issued it is
100 exactly when the state is Connected (otherwise 0). -/
theorem C3_health_score_formula (m : HardwareMonitor) :
    (HardwareMonitor.get_health_score m = healthScoreSpec m)
  ∧ (0 ≤ HardwareMonitor.get_health_score m)
  ∧ (HardwareMonitor.get_health_score m ≤ 100)
  ∧ (m.status.total_commands = 0 →
      ((HardwareMonitor.get_health_score m = 100
          ↔ m.status.state = HardwareState.connected)
        ∧ (m.status.state ≠ HardwareState.connected →
            HardwareMonitor.get_health_score m = 0))) := by
  refine ⟨?_, ?_, ?_, ?_⟩
  · unfold HardwareMonitor.get_health_score healthScoreSpec
    split
    · rfl
    · ring_nf
  · unfold HardwareMonitor.get_health_score
    split
    · split <;> norm_num
    · exact le_max_left 0 _
  · unfold HardwareMonitor.get_health_score
    split
    · split <;> norm_num
    · exact max_le (by norm_num) (min_le_left _ _)
  · intro h0
    constructor
    · unfold HardwareMonitor.get_health_score
      rw [if_pos h0]
      by_cases hs : m.status.state = HardwareState.connected
      · simp [hs]
      · simp [hs]
    · intro hs
      unfold HardwareMonitor.get_health_score
      rw [if_pos h0, if_neg hs]

/-- Witness for C3: on the freshly constructed monitor (zero commands,
state Disconnected) the score is 100 only if the state were Connected, and
it is in fact 0. -/
theorem C3_health_score_witness :
    (HardwareMonitor.get_health_score HardwareMonitor.init = 100
      ↔ HardwareMonitor.init.status.state = HardwareState.connected)
  ∧ (HardwareMonitor.init.status.state ≠ HardwareState.connected →
      HardwareMonitor.get_health_score HardwareMonitor.init = 0) :=
  (C3_health_score_formula HardwareMonitor.init).2.2.2 rfl

/-- A sequence table used as concrete input: it already holds a sequence
named "a". -/
def seqA : Sequence :=
  { name := "a",
    steps := [{ action := "DIGITAL_WRITE", pin := "13", value := 1 }],
    loop := false, interval := 1, enabled := true, current_step := 0,
    start_time := none }

/-- C4 is false as stated: `create_sequence` on a name that already exists
returns success (`True`) and silently replaces the stored definition. -/
theorem C4_counterexample :
    ((AutomationEngine.create_sequence [("a", seqA)] "a" [] false 1).1 = true)
  ∧ (List.lookup "a" (AutomationEngine.create_sequence [("a", seqA)] "a" [] false 1).2
      ≠ some seqA) := by
  decide

/-- C4 (amended): `create_sequence` never fails — it performs no
duplicate-name or well-formedness check; it unconditionally returns `True`
and stores the new definition under the name, overwriting any existing
sequence of that name. -/
theorem C4_create_sequence_overwrites (table : SequenceTable) (name : String)
    (steps : List SeqStep) (loop : Bool) (interval : ℚ) :
    ((AutomationEngine.create_sequence table name steps loop interval).1 = true)
  ∧ ((AutomationEngine.create_sequence table name steps loop interval).2
      = listInsert name
          { name := name, steps := steps, loop := loop, interval := interval,
            enabled := true, current_step := 0, start_time := none } table)
  ∧ (List.lookup name (AutomationEngine.create_sequence table name steps loop interval).2
      = some { name := name, steps := steps, loop := loop, interval := interval,
               enabled := true, current_step := 0, start_time := none }) :=
  ⟨rfl, rfl, lookup_listInsert_self name _ table⟩

/-- A connected robotic-arm backend in its initial configuration. -/
def armConnected : ArmBackend :=
  { RoboticArmBackend.init with is_connected := true }

/-- C5: evaluation of `read_all_positions` at the failing input.  The
`response.isdigit()` guard rejects every comma-separated reply (a comma is
not a digit), so the device reply `"10,20,30"` yields `[]`, leaves the
cached positions untouched and notifies no callback — although the
function's own comment says it parses comma-separated values, and its
parser splits on commas.  Only a pure digit string such as `"123"` (a
single position) reaches the parse-cache-notify path. -/
theorem C5_readall_digit_guard :
    (RoboticArmBackend.read_all_positions armConnected "10,20,30"
      = ([], armConnected, none))
  ∧ (pyIsdigit "10,20,30" = false)
  ∧ (RoboticArmBackend.read_all_positions armConnected "123"
      = ([123], { armConnected with current_positions := [123] }, some [123])) := by
  decide

/-- A service state holding one pin configuration and one smoothing
window. -/
def serviceEx : ServiceState :=
  { pin_configs := [(13, { pin_number := 13, mode := "OUTPUT" })],
    analog_smoothing := [("A0", [512, 512])] }

/-- C6 is false as stated: `_on_connection_lost` clears the smoothing
dict, but the pin-configuration table survives the disconnect. -/
theorem C6_counterexample :
    ((HardwareService.on_connection_lost serviceEx).analog_smoothing = [])
  ∧ ((HardwareService.on_connection_lost serviceEx).pin_configs ≠ []) := by
  decide

/-- C6 (amended): on `ConnectionLost` every per-channel smoothing window
is discarded, while the pin-configuration table is retained unchanged (it
is re-applied to the device on the next `ConnectionEstablished`); the
interface-level `disconnect` only drops the connection-state flag. -/
theorem C6_connection_lost_state (st : ServiceState) (m : HardwareMonitor) :
    ((HardwareService.on_connection_lost st).analog_smoothing = [])
  ∧ ((HardwareService.on_connection_lost st).pin_configs = st.pin_configs)
  ∧ ((STM32HardwareInterface.disconnect m).status.state = HardwareState.disconnected)
  ∧ ((STM32HardwareInterface.disconnect m).status.total_commands
      = m.status.total_commands) :=
  ⟨rfl, rfl, rfl, rfl⟩

theorem analog_read_value_step (st : ServiceState) (pin : String) (v : ℕ)
    (w : List ℤ) (hw : List.lookup pin st.analog_smoothing = some w)
    (hne : w ≠ []) :
    ((HardwareService.analog_read_value st pin v).1
      = intTrunc ((w.getLastD 0 : ℚ) * (7/10) + (v : ℚ) * (3/10)))
  ∧ (∃ w2 : List ℤ,
      List.lookup pin (HardwareService.analog_read_value st pin v).2.analog_smoothing
        = some w2
      ∧ w2 ≠ []
      ∧ w2.getLastD 0 = (HardwareService.analog_read_value st pin v).1) := by
  have h1 : (HardwareService.analog_read_value st pin v).1
      = intTrunc ((w.getLastD 0 : ℚ) * (7/10) + (v : ℚ) * (3/10)) := by
    simp [HardwareService.analog_read_value, HardwareService.apply_smoothing, hw]
  refine ⟨h1, ?_⟩
  have h2 : (HardwareService.analog_read_value st pin v).2.analog_smoothing
      = listInsert pin
          (if (w ++ [intTrunc ((w.getLastD 0 : ℚ) * (7/10) + (v : ℚ) * (3/10))]).length
                > smoothing_window
           then (w ++ [intTrunc ((w.getLastD 0 : ℚ) * (7/10) + (v : ℚ) * (3/10))]).tail
           else w ++ [intTrunc ((w.getLastD 0 : ℚ) * (7/10) + (v : ℚ) * (3/10))])
          st.analog_smoothing := by
    simp [HardwareService.analog_read_value, HardwareService.apply_smoothing, hw]
  by_cases hlen :
      (w ++ [intTrunc ((w.getLastD 0 : ℚ) * (7/10) + (v : ℚ) * (3/10))]).length
        > smoothing_window
  · refine ⟨w.tail ++ [intTrunc ((w.getLastD 0 : ℚ) * (7/10) + (v : ℚ) * (3/10))],
      ?_, by simp, ?_⟩
    · rw [h2, if_pos hlen, tail_append_single w _ hne]
      exact lookup_listInsert_self pin _ _
    · rw [List.getLastD_concat, h1]
  · refine ⟨w ++ [intTrunc ((w.getLastD 0 : ℚ) * (7/10) + (v : ℚ) * (3/10))],
      ?_, by simp, ?_⟩
    · rw [h2, if_neg hlen]
      exact lookup_listInsert_self pin _ _
    · rw [List.getLastD_concat, h1]

theorem analogRead_invariant (pin : String) (r : ℕ → ℕ) : ∀ n : ℕ,
    ∃ w : List ℤ,
      List.lookup pin (analogReadState pin r (n+1)).analog_smoothing = some w
      ∧ w ≠ []
      ∧ w.getLastD 0 = analogReadOut pin r n
  | 0 => by
    have hfirst : analogReadState pin r 1
        = (HardwareService.analog_read_value ServiceState.init pin (r 0)).2 := rfl
    have hnone : List.lookup pin ServiceState.init.analog_smoothing = none := rfl
    refine ⟨List.replicate smoothing_window ((r 0 : ℤ)), ?_, by simp [smoothing_window], ?_⟩
    · rw [hfirst]
      simp [HardwareService.analog_read_value, hnone]
      exact lookup_listInsert_self pin _ _
    · have hout : analogReadOut pin r 0 = ((r 0 : ℤ)) := by
        simp [analogReadOut, analogReadState, HardwareService.analog_read_value, hnone]
      rw [hout]
      simp [smoothing_window, List.replicate]
  | n + 1 => by
    obtain ⟨w, hw, hne, hlast⟩ := analogRead_invariant pin r n
    exact (analog_read_value_step (analogReadState pin r (n+1)) pin (r (n+1)) w hw hne).2

/-- C2 (amended): the first `analog_read` on a channel returns the raw
sample `r 0` unsmoothed (the window is seeded with it); every later read
returns the `int()`-truncation of `0.7 × previous + 0.3 × rN`, where
`previous` is the previously returned (already truncated) value — the
recurrence holds with integer truncation applied at every step, not in
exact real arithmetic. -/
theorem C2_smoothing_recurrence (pin : String) (r : ℕ → ℕ) :
    (analogReadOut pin r 0 = ((r 0 : ℤ)))
  ∧ (∀ n : ℕ, analogReadOut pin r (n+1)
      = intTrunc ((analogReadOut pin r n : ℚ) * (7/10) + ((r (n+1)) : ℚ) * (3/10))) := by
  constructor
  · have hnone : List.lookup pin ServiceState.init.analog_smoothing = none := rfl
    simp [analogReadOut, analogReadState, HardwareService.analog_read_value, hnone]
  · intro n
    obtain ⟨w, hw, hne, hlast⟩ := analogRead_invariant pin r n
    have h := (analog_read_value_step (analogReadState pin r (n+1)) pin (r (n+1)) w hw hne).1
    rw [hlast] at h
    exact h

/-- The raw-sample sequence 0, 1, 1, 1, ... -/
def exSamples01 : ℕ → ℕ := fun n => if n = 0 then 0 else 1

/-- C2 is false as stated: with raw samples `r0 = 0`, `r1 = 1` the second
returned value is `int(0.7×0 + 0.3×1) = 0`, not the exact blend `0.3`
claimed by the recurrence without truncation. -/
theorem C2_counterexample :
    ¬ ((analogReadOut "A0" exSamples01 1 : ℚ)
        = (analogReadOut "A0" exSamples01 0 : ℚ) * (7/10)
          + ((exSamples01 1 : ℕ) : ℚ) * (3/10)) := by
  have hnone : List.lookup "A0" ServiceState.init.analog_smoothing = none := rfl
  have h0 : analogReadOut "A0" exSamples01 0 = 0 := by
    simp [analogReadOut, analogReadState, HardwareService.analog_read_value,
          hnone, exSamples01]
  obtain ⟨w, hw, hne, hlast⟩ := analogRead_invariant "A0" exSamples01 0
  have h1 : analogReadOut "A0" exSamples01 1
      = intTrunc ((w.getLastD 0 : ℚ) * (7/10) + ((exSamples01 1 : ℕ) : ℚ) * (3/10)) :=
    (analog_read_value_step (analogReadState "A0" exSamples01 1) "A0"
      (exSamples01 1) w hw hne).1
  rw [hlast, h0] at h1
  have he : (((0 : ℤ) : ℚ) * (7/10) + ((exSamples01 1 : ℕ) : ℚ) * (3/10))
      = ((3 : ℕ) : ℚ) / ((10 : ℕ) : ℚ) := by
    norm_num [exSamples01]
  have hval : intTrunc (((0 : ℤ) : ℚ) * (7/10) + ((exSamples01 1 : ℕ) : ℚ) * (3/10)) = 0 := by
    rw [intTrunc, he, if_pos (by norm_num), Rat.floor_natCast_div_natCast]
    decide
  rw [h1, hval, h0]
  norm_num [exSamples01]

theorem loadWaypoint_saveWaypoint (now : ℚ) (wp : Waypoint) :
    loadWaypoint now (saveWaypoint wp) = some { wp with timestamp := now } := by
  obtain ⟨pos, delay, tt, mp, ts⟩ := wp
  cases tt <;> cases mp <;> rfl

theorem loadWaypoints_map_save (now : ℚ) (wps : List Waypoint) :
    loadWaypoints now (wps.map saveWaypoint)
      = some (wps.map (fun wp => { wp with timestamp := now })) := by
  induction wps with
  | nil => rfl
  | cons wp rest ih =>
    simp [loadWaypoints, loadWaypoint_saveWaypoint, ih]

/-- The waypoint fields the round-trip claim compares: positions, delay,
and the trajectory/motion-profile tags (the construction timestamp is not
persisted). -/
def waypointData (wp : Waypoint) : List ℚ × ℤ × TrajectoryType × MotionProfile :=
  (wp.positions, wp.delay_ms, wp.trajectory_type, wp.motion_profile)

/-- C7: for every task present in the table, `save_task` produces a
document, and `load_task` of that document (into any table) succeeds,
reporting and storing a task with the same name whose waypoint list agrees
with the original on positions, delay and trajectory/motion-profile tags. -/
theorem C7_save_load_roundtrip (tasks : List (String × TaskSequence))
    (task_name : String) (t : TaskSequence) (now : ℚ)
    (h : List.lookup task_name tasks = some t) :
    ∃ doc : SavedTask,
      RoboticArmBackend.save_task tasks task_name = some doc
      ∧ doc.name = t.name
      ∧ ∀ tasks2 : List (String × TaskSequence),
          (RoboticArmBackend.load_task doc now tasks2).1 = some t.name
          ∧ ∃ t2 : TaskSequence,
              List.lookup t.name (RoboticArmBackend.load_task doc now tasks2).2 = some t2
              ∧ t2.name = t.name
              ∧ t2.waypoints.map waypointData = t.waypoints.map waypointData := by
  refine ⟨{ name := t.name, description := t.description,
            waypoints := t.waypoints.map saveWaypoint,
            created_at := t.created_at, modified_at := t.modified_at }, ?_, rfl, ?_⟩
  · rw [RoboticArmBackend.save_task, h]
  · intro tasks2
    have hload : RoboticArmBackend.load_task
        { name := t.name, description := t.description,
          waypoints := t.waypoints.map saveWaypoint,
          created_at := t.created_at, modified_at := t.modified_at } now tasks2
        = (some t.name,
           listInsert t.name
             { name := t.name, description := t.description,
               waypoints := t.waypoints.map (fun wp => { wp with timestamp := now }),
               loop_count := 0, created_at := t.created_at,
               modified_at := t.modified_at } tasks2) := by
      rw [RoboticArmBackend.load_task]
      rw [loadWaypoints_map_save]
    refine ⟨by rw [hload], ?_⟩
    refine ⟨{ name := t.name, description := t.description,
              waypoints := t.waypoints.map (fun wp => { wp with timestamp := now }),
              loop_count := 0, created_at := t.created_at,
              modified_at := t.modified_at }, ?_, rfl, ?_⟩
    · rw [hload]
      exact lookup_listInsert_self t.name _ tasks2
    · simp [waypointData]

/-- A one-waypoint task used as concrete input. -/
def taskEx : TaskSequence :=
  { name := "pick", description := "demo",
    waypoints := [{ positions := [10, 20, 30, 40, 50, 60, 70], delay_ms := 500,
                    trajectory_type := TrajectoryType.smooth,
                    motion_profile := MotionProfile.normal, timestamp := 1 }],
    loop_count := 0, created_at := 1, modified_at := 2 }

/-- Witness for C7: the round trip at the concrete table `[("pick", taskEx)]`. -/
theorem C7_save_load_roundtrip_witness :
    ∃ doc : SavedTask,
      RoboticArmBackend.save_task [("pick", taskEx)] "pick" = some doc
      ∧ doc.name = taskEx.name
      ∧ ∀ tasks2 : List (String × TaskSequence),
          (RoboticArmBackend.load_task doc 7 tasks2).1 = some taskEx.name
          ∧ ∃ t2 : TaskSequence,
              List.lookup taskEx.name (RoboticArmBackend.load_task doc 7 tasks2).2 = some t2
              ∧ t2.name = taskEx.name
              ∧ t2.waypoints.map waypointData = taskEx.waypoints.map waypointData :=
  C7_save_load_roundtrip [("pick", taskEx)] "pick" taskEx 7 (by decide)

/-- C9: on a pin absent from the configuration table, `digital_write`
first sends `PIN_MODE:<pin>:OUTPUT` and (on an `OK` acknowledgement)
records the pin as OUTPUT before sending `DIGITAL_WRITE`; `digital_read`
sends only `DIGITAL_READ` and never touches the configuration table. -/
theorem C9_autoconfigure_on_write_only (env : String → String)
    (st : ServiceState) (pin : ℕ) (state : ℤ)
    (h1 : List.lookup pin st.pin_configs = none)
    (h2 : env (pinModeCmd pin "OUTPUT") = "OK") :
    ((HardwareService.digital_write env st pin state).2.2
      = [pinModeCmd pin "OUTPUT", digitalWriteCmd pin state])
  ∧ (List.lookup pin (HardwareService.digital_write env st pin state).2.1.pin_configs
      = some { pin_number := pin, mode := "OUTPUT" })
  ∧ (∀ (st2 : ServiceState) (pin2 : ℕ),
      (HardwareService.digital_read env st2 pin2).2.1 = st2
      ∧ (HardwareService.digital_read env st2 pin2).2.2 = [digitalReadCmd pin2]) := by
  refine ⟨?_, ?_, fun st2 pin2 => ⟨rfl, rfl⟩⟩
  · simp [HardwareService.digital_write, HardwareService.configure_pin, h1, h2]
  · simp [HardwareService.digital_write, HardwareService.configure_pin, h1, h2,
          lookup_listInsert_self]

/-- Witness for C9: a fresh service, a device that acknowledges
everything, pin 13, write value 1. -/
theorem C9_autoconfigure_witness :
    ((HardwareService.digital_write (fun _ => "OK") ServiceState.init 13 1).2.2
      = [pinModeCmd 13 "OUTPUT", digitalWriteCmd 13 1])
  ∧ (List.lookup 13 (HardwareService.digital_write (fun _ => "OK") ServiceState.init 13 1).2.1.pin_configs
      = some { pin_number := 13, mode := "OUTPUT" })
  ∧ (∀ (st2 : ServiceState) (pin2 : ℕ),
      (HardwareService.digital_read (fun _ => "OK") st2 pin2).2.1 = st2
      ∧ (HardwareService.digital_read (fun _ => "OK") st2 pin2).2.2 = [digitalReadCmd pin2]) :=
  C9_autoconfigure_on_write_only (fun _ => "OK") ServiceState.init 13 1 rfl rfl

/-- The empty task inserted by a successful `create_task`. -/
def emptyTask (name description : String) (now : ℚ) : TaskSequence :=
  { name := name, description := description, waypoints := [],
    loop_count := 0, created_at := now, modified_at := now }

/-- C10: `create_task` returns `None` and leaves the table unchanged when
the name exists or the table already holds `max_tasks` tasks, and
otherwise inserts a fresh empty task and returns it;
`add_waypoint_to_task` returns `False` and changes nothing once the task
holds `max_waypoints` waypoints; the constructor defaults are
`max_tasks = 6` and `max_waypoints = 250`. -/
theorem C10_task_and_waypoint_limits (b : ArmBackend)
    (name description : String) (now : ℚ) :
    ((b.tasks.length ≥ b.max_tasks ∨ (List.lookup name b.tasks).isSome) →
      RoboticArmBackend.create_task b name description now = (none, b))
  ∧ (b.tasks.length < b.max_tasks → List.lookup name b.tasks = none →
      RoboticArmBackend.create_task b name description now
        = (some (emptyTask name description now),
           { b with tasks := listInsert name (emptyTask name description now) b.tasks }))
  ∧ (∀ (task_name : String) (positions : List ℚ) (delay_ms : ℤ)
       (tt : TrajectoryType) (mp : MotionProfile) (t : TaskSequence),
      List.lookup task_name b.tasks = some t →
      t.waypoints.length ≥ b.max_waypoints →
      RoboticArmBackend.add_waypoint_to_task b task_name positions delay_ms tt mp now
        = (false, b))
  ∧ (RoboticArmBackend.init.max_tasks = 6 ∧ RoboticArmBackend.init.max_waypoints = 250) := by
  refine ⟨?_, ?_, ?_, rfl, rfl⟩
  · intro h
    rcases h with h | h
    · rw [RoboticArmBackend.create_task, if_pos h]
    · by_cases hfull : b.tasks.length ≥ b.max_tasks
      · rw [RoboticArmBackend.create_task, if_pos hfull]
      · rw [RoboticArmBackend.create_task, if_neg hfull, if_pos h]
  · intro hlen hname
    rw [RoboticArmBackend.create_task, if_neg (by omega)]
    rw [if_neg (by simp [hname])]
    rfl
  · intro task_name positions delay_ms tt mp t hlk hwp
    rw [RoboticArmBackend.add_waypoint_to_task]
    rw [hlk]
    simp only [if_pos hwp]

/-- A backend at both limits: one task slot, zero waypoints allowed, one
stored task. -/
def armFull : ArmBackend :=
  { max_waypoints := 0, max_tasks := 1, is_connected := false,
    tasks := [("t1", emptyTask "t1" "" 0)], current_positions := [] }

/-- Witness for C10: on `armFull`, creating any task and adding any
waypoint are rejected without state change; on the freshly constructed
backend, creating a task succeeds and stores the empty task. -/
theorem C10_task_and_waypoint_limits_witness :
    (RoboticArmBackend.create_task armFull "t2" "" 0 = (none, armFull))
  ∧ (RoboticArmBackend.create_task RoboticArmBackend.init "t1" "" 0
      = (some (emptyTask "t1" "" 0),
         { RoboticArmBackend.init with
            tasks := listInsert "t1" (emptyTask "t1" "" 0) RoboticArmBackend.init.tasks }))
  ∧ (RoboticArmBackend.add_waypoint_to_task armFull "t1" [] 500
        TrajectoryType.smooth MotionProfile.normal 0 = (false, armFull)) :=
  ⟨(C10_task_and_waypoint_limits armFull "t2" "" 0).1 (Or.inl (by decide)),
   (C10_task_and_waypoint_limits RoboticArmBackend.init "t1" "" 0).2.1
     (by decide) (by decide),
   (C10_task_and_waypoint_limits armFull "t1" "" 0).2.2.1 "t1" [] 500
     TrajectoryType.smooth MotionProfile.normal (emptyTask "t1" "" 0)
     (by decide) (by decide)⟩
